import Mathlib

/-!
Shallow embedding of the friendship engine of the `friends-of-friends`
repository (src/lib/friendship.js, src/unnamed/part_000 — the account-schema
plugin — and src/unnamed/part_001 — a near-duplicate of the friendship
module).  Account ids (mongoose ObjectIds, opaque and comparable via
`.equals`) are modelled as naturals; the relationship store (a mongoose
collection of Friendship documents) as a list of records in insertion order.
Asynchronous callbacks are modelled by their synchronous, deterministic
data flow: each store primitive is a pure function of the store value.
-/

namespace FriendsOfFriends

/-- An account id: an opaque comparable identifier (`ObjectId.equals` is
value equality). -/
abbrev AccountId := Nat

/-- The `status` field of a Friendship document: `'Pending'` on creation
(schema default), `'Accepted'` after `acceptRequest`; a denied request is
deleted, so no other value is ever stored. -/
inductive FStatus where
  | Pending
  | Accepted
deriving DecidableEq, Repr

/-- A Friendship document (src/lib/friendship.js lines 34-40): directed edge
from `requester` to `requested` with a status, `dateSent` (schema default
`Date.now`) and an optional `dateAccepted` (absent until accepted). -/
structure Friendship where
  requester : AccountId
  requested : AccountId
  status : FStatus
  dateSent : Nat
  dateAccepted : Option Nat
deriving DecidableEq, Repr

/-- The relationship store: the Friendship collection, in insertion order.
`find` returns matching documents in this order. -/
abbrev Store := List Friendship

/-- The `find` conditions of `getFriends` (src/lib/friendship.js lines
213-219): documents where `accountId` is requester or requested and whose
status is `'Accepted'`. -/
def friendshipMatches (accountId : AccountId) (f : Friendship) : Bool :=
  (f.requester == accountId || f.requested == accountId) && f.status == FStatus.Accepted

/-- `FriendshipModel.getFriends` (src/lib/friendship.js lines 208-244,
identical in src/unnamed/part_001 lines 214-250): for each Accepted edge
touching `accountId`, push the opposite endpoint (`requested` when
`accountId.equals(friendship.requester)`, else `requester`). -/
def getFriends (store : Store) (accountId : AccountId) : List AccountId :=
  (store.filter (friendshipMatches accountId)).map
    (fun f => if accountId == f.requester then f.requested else f.requester)

/-- Membership in the derived friend list holds exactly for the opposite
endpoint of some Accepted edge, in either direction. -/
lemma mem_getFriends (store : Store) (a b : AccountId) :
    b ∈ getFriends store a ↔
      ∃ f ∈ store, f.status = FStatus.Accepted ∧
        ((f.requester = a ∧ f.requested = b) ∨ (f.requester = b ∧ f.requested = a)) := by
  unfold getFriends friendshipMatches
  simp only [List.mem_map, List.mem_filter, Bool.and_eq_true, Bool.or_eq_true, beq_iff_eq]
  constructor
  · rintro ⟨f, ⟨hf, hside, hst⟩, hval⟩
    by_cases hreq : a = f.requester
    · simp only [hreq, if_pos rfl] at hval
      exact ⟨f, hf, hst, Or.inl ⟨hreq.symm, hval⟩⟩
    · have hval' : f.requester = b := by
        simpa [if_neg hreq] using hval
      have hreqd : f.requested = a := by
        rcases hside with h | h
        · exact absurd h.symm hreq
        · exact h
      exact ⟨f, hf, hst, Or.inr ⟨hval', hreqd⟩⟩
  · rintro ⟨f, hf, hst, hdir⟩
    rcases hdir with ⟨hr, hd⟩ | ⟨hr, hd⟩
    · exact ⟨f, ⟨hf, Or.inl hr, hst⟩, by simp [hr, hd]⟩
    · refine ⟨f, ⟨hf, Or.inr hd, hst⟩, ?_⟩
      by_cases hab : a = f.requester
      · rw [if_pos hab, hd, hab]
        exact hr
      · rw [if_neg hab]
        exact hr

/-- C9: membership in derived friend sets is symmetric: `b` is in
`getFriends(a)` iff `a` is in `getFriends(b)`, because `getFriends` selects
the opposite endpoint of each Accepted edge regardless of which side was the
requester. -/
theorem getFriends_symm (store : Store) (a b : AccountId) :
    b ∈ getFriends store a ↔ a ∈ getFriends store b := by
  rw [mem_getFriends, mem_getFriends]
  constructor <;>
    · rintro ⟨f, hf, hst, hdir⟩
      exact ⟨f, hf, hst, hdir.symm⟩

/-- A JavaScript value as it occurs in the `idsFound` bookkeeping of
`getFriendsOfFriends`: the code pushes strings
(`friendsOfFriendIds.toString()`) but probes with ObjectIds, so both shapes
are needed to model the `===` comparison of `Array.prototype.indexOf`. -/
inductive JsVal where
  | oid (n : AccountId)
  | str (s : String)
deriving DecidableEq, Repr

/-- JavaScript strict equality (`===`) as exercised by
`idsFound.indexOf(friendOfFriendId)`: two strings compare by value; a string
never equals an ObjectId; two ObjectId objects compare by reference, and the
documents returned by separate queries are always fresh objects, so that
comparison is also false here. -/
def jsStrictEq : JsVal → JsVal → Bool
  | JsVal.str a, JsVal.str b => a == b
  | _, _ => false

/-- `Array.prototype.indexOf`: index of the first `===`-equal element, `-1`
when there is none. -/
def jsIndexOf : List JsVal → JsVal → Int
  | [], _ => -1
  | v :: rest, x =>
    if jsStrictEq v x then 0
    else
      let r := jsIndexOf rest x
      if r == -1 then -1 else r + 1

/-- `Array.prototype.toString` of a list of ObjectIds: elements joined by
commas (each ObjectId rendered as its hex string, modelled by the decimal
rendering of the natural). -/
def idListToString (l : List AccountId) : String :=
  String.intercalate "," (l.map (fun n => toString n))

/-- The body of the inner `forEach` of `getFriendsOfFriends`
(src/lib/friendship.js lines 278-286, src/unnamed/part_001 lines 284-292):
if `idsFound.indexOf(friendOfFriendId) === -1` and the id is not the account
itself, push `friendsOfFriendIds.toString()` (the whole array, not the
element) onto `idsFound` and push the id onto the results.  The state is
`(idsFound, friendsOfFriendsIds)`. -/
def fofStep (accountId : AccountId) (friendsOfFriendIds : List AccountId)
    (st : List JsVal × List AccountId) (friendOfFriendId : AccountId) :
    List JsVal × List AccountId :=
  if jsIndexOf st.1 (JsVal.oid friendOfFriendId) == -1 && !(accountId == friendOfFriendId) then
    (st.1 ++ [JsVal.str (idListToString friendsOfFriendIds)], st.2 ++ [friendOfFriendId])
  else
    st

/-- The inner `forEach` over one friend's friend list. -/
def fofInner (accountId : AccountId) (friendsOfFriendIds : List AccountId) :
    List JsVal × List AccountId → List AccountId → List JsVal × List AccountId
  | st, [] => st
  | st, x :: rest => fofInner accountId friendsOfFriendIds (fofStep accountId friendsOfFriendIds st x) rest

/-- The outer `forEach` over the account's friends: each iteration queries
that friend's friends and runs the inner loop over them. -/
def fofLoop (store : Store) (accountId : AccountId) :
    List JsVal × List AccountId → List AccountId → List JsVal × List AccountId
  | st, [] => st
  | st, friendId :: rest =>
    fofLoop store accountId
      (fofInner accountId (getFriends store friendId) st (getFriends store friendId)) rest

/-- `FriendshipModel.getFriendsOfFriends` (src/lib/friendship.js lines
252-296, src/unnamed/part_001 lines 258-304): query the account's friends;
if none, return the empty accumulator; otherwise run the fan-out loop and
return the accumulated `friendsOfFriendsIds`.  The callbacks run their data
flow in friend-list order. -/
def getFriendsOfFriends (store : Store) (accountId : AccountId) : List AccountId :=
  let friendIds := getFriends store accountId
  if friendIds.isEmpty then []
  else (fofLoop store accountId ([], []) friendIds).2

/-- The `indexOf` probe of the dedup check never finds anything: `idsFound`
only ever holds strings and the probe is an ObjectId. -/
lemma jsIndexOf_oid (l : List JsVal) (x : AccountId) : jsIndexOf l (JsVal.oid x) = -1 := by
  induction l with
  | nil => rfl
  | cons v rest ih =>
    have hne : jsStrictEq v (JsVal.oid x) = false := by
      cases v <;> rfl
    simp [jsIndexOf, hne, ih]

/-- The inner loop appends exactly the ids of the current friend list that
differ from the account itself; the dedup check is inoperative. -/
lemma fofInner_snd (accountId : AccountId) (whole : List AccountId) :
    ∀ (l : List AccountId) (st : List JsVal × List AccountId),
      (fofInner accountId whole st l).2 = st.2 ++ l.filter (fun x => !(accountId == x)) := by
  intro l
  induction l with
  | nil => intro st; simp [fofInner]
  | cons x rest ih =>
    intro st
    rw [fofInner, ih]
    unfold fofStep
    rw [jsIndexOf_oid]
    by_cases hx : accountId = x
    · have hbx : (accountId == x) = true := beq_iff_eq.mpr hx
      simp [List.filter, hbx]
    · have hbx : (accountId == x) = false := beq_eq_false_iff_ne.mpr hx
      simp [List.filter, hbx]

/-- The outer loop appends, for each friend in order, that friend's friend
list with the account itself filtered out. -/
lemma fofLoop_snd (store : Store) (accountId : AccountId) :
    ∀ (fl : List AccountId) (st : List JsVal × List AccountId),
      (fofLoop store accountId st fl).2 =
        st.2 ++ (fl.map (fun f => (getFriends store f).filter (fun x => !(accountId == x)))).flatten := by
  intro fl
  induction fl with
  | nil => intro st; simp [fofLoop]
  | cons friendId rest ih =>
    intro st
    rw [fofLoop, ih, fofInner_snd]
    simp [List.append_assoc]

/-- Closed form of the traversal: the concatenation, over the account's
friends in order, of each friend's friend list minus the account itself.
No deduplication and no removal of direct friends takes place. -/
lemma getFriendsOfFriends_eq (store : Store) (accountId : AccountId) :
    getFriendsOfFriends store accountId =
      ((getFriends store accountId).map
        (fun f => (getFriends store f).filter (fun x => !(accountId == x)))).flatten := by
  unfold getFriendsOfFriends
  by_cases h : (getFriends store accountId).isEmpty
  · rw [if_pos h]
    rw [List.isEmpty_iff] at h
    simp [h]
  · rw [if_neg h, fofLoop_snd]
    rfl

/-- C1: the deduplication of `getFriendsOfFriends` never fires — the code
pushes `friendsOfFriendIds.toString()` (the whole array) into `idsFound` and
then compares ObjectIds against those strings with `===` — so an id reached
by two two-hop paths appears twice: with accepted edges 1-2, 1-3, 2-4, 3-4,
account 4 is reported twice for account 1. -/
theorem getFriendsOfFriends_duplicate_eval :
    getFriendsOfFriends
      [⟨1, 2, FStatus.Accepted, 0, none⟩, ⟨1, 3, FStatus.Accepted, 1, none⟩,
       ⟨2, 4, FStatus.Accepted, 2, none⟩, ⟨3, 4, FStatus.Accepted, 3, none⟩] 1 = [4, 4] := by
  rfl

/-- C2 counterexample: with accepted edges 1-2, 2-3 and 1-3, account 3 is a
direct friend of account 1 and still appears in `getFriendsOfFriends(1)`:
only the account itself is excluded, never its direct friends. -/
theorem getFriendsOfFriends_contains_direct_friend :
    3 ∈ getFriends
      [⟨1, 2, FStatus.Accepted, 0, none⟩, ⟨2, 3, FStatus.Accepted, 1, none⟩,
       ⟨1, 3, FStatus.Accepted, 2, none⟩] 1 ∧
    3 ∈ getFriendsOfFriends
      [⟨1, 2, FStatus.Accepted, 0, none⟩, ⟨2, 3, FStatus.Accepted, 1, none⟩,
       ⟨1, 3, FStatus.Accepted, 2, none⟩] 1 := by
  constructor <;> decide

/-- C2 amended: `getFriendsOfFriends(a)` never contains `a` itself (the
`!accountId.equals(friendOfFriendId)` check), but members of `getFriends(a)`
are not excluded: a direct friend reachable in two hops through another
friend does appear in the result. -/
theorem getFriendsOfFriends_excludes_self (store : Store) (a : AccountId) :
    a ∉ getFriendsOfFriends store a := by
  rw [getFriendsOfFriends_eq]
  intro hmem
  rw [List.mem_flatten] at hmem
  obtain ⟨l, hl, hal⟩ := hmem
  rw [List.mem_map] at hl
  obtain ⟨f, _, hfl⟩ := hl
  rw [← hfl, List.mem_filter] at hal
  simp at hal

/-- `AccountModel.getFriendship` (src/unnamed/part_000 lines 316-337,
likewise `FriendshipModel.getFriendship` in src/lib/friendship.js lines
438-452): `findOne` on the pair in either direction — with the filter
`status: 'Accepted'`, so it only ever finds Accepted edges. -/
def getFriendship (store : Store) (accountId1 accountId2 : AccountId) : Option Friendship :=
  store.find? (fun f =>
    ((f.requester == accountId1 && f.requested == accountId2) ||
     (f.requester == accountId2 && f.requested == accountId1)) && f.status == FStatus.Accepted)

/-- Per-identity privacy settings: four dimensions, each a number between
`privacy.values.ANYBODY` and `privacy.values.NOBODY` (the `settingDef`
bounds in src/unnamed/part_000 lines 28-43). -/
structure PrivacySettings where
  profile : Nat
  search : Nat
  chatRequests : Nat
  friendRequests : Nat
deriving DecidableEq, Repr

/-- Modelled from the spec: the privacy module required by
src/unnamed/part_000 is not under src/; the spec describes an ordered scale
from fully-open to fully-closed.  `ANYBODY` is the minimal (fully-open)
value. -/
def privacyANYBODY : Nat := 0

/-- Modelled from the spec: the maximal (fully-closed) value of a privacy
dimension. -/
def privacyNOBODY : Nat := 3

/-- Modelled from the spec: `canReceiveFriendRequest(settings) -> bool` —
true unless the identity's friend-request dimension is set to fully-closed
(spec section 4.2). -/
def canReceiveFriendRequest (s : PrivacySettings) : Bool :=
  !(s.friendRequests == privacyNOBODY)

/-- An identity as held by the Identity Store: id, contact handle (email)
and privacy settings. -/
structure Identity where
  accountId : AccountId
  email : String
  privacy : PrivacySettings
deriving DecidableEq, Repr

/-- What `friendRequest` reads off the `requestedAccountInfo` it receives:
the resolved `_id` and the `friendRequests` permission flag. -/
structure AccountInfo where
  _id : AccountId
  friendRequests : Bool
deriving DecidableEq, Repr

/-- Modelled from the spec: `viewProfile`, called by
`AccountModel.friendRequest` (src/unnamed/part_000 line 96), is not under
src/.  Per spec sections 4.3 and 6 it resolves the requested handle through
the Identity Store — yielding nothing when the handle is unresolvable — and
reports the requested identity's friend-request permission, the privacy
policy of section 4.2 applied to its settings. -/
def viewProfile (accounts : List Identity) (requestedEmail : String) : Option AccountInfo :=
  match accounts.find? (fun i => i.email == requestedEmail) with
  | none => none
  | some i => some ⟨i.accountId, canReceiveFriendRequest i.privacy⟩

/-- The outcome `AccountModel.friendRequest` delivers to its callback. -/
inductive SendOutcome where
  /-- The new Pending edge was saved and passed to the callback. -/
  | created (friendship : Friendship)
  /-- `viewProfile` found no such identity: the callback is invoked with no
  arguments (src/unnamed/part_000 line 100). -/
  | noSuchIdentity
  /-- An existing edge was found: the code computes the conflict message and
  then evaluates `done(err, populatedFriendship)` (src/unnamed/part_000 line
  111) — `populatedFriendship` is an undeclared identifier, so a
  ReferenceError is thrown instead of the callback firing. -/
  | conflictRefError (err : String)
  /-- The privacy gate refused: the callback receives the not-permitted
  error (src/unnamed/part_000 line 115). -/
  | notPermitted (err : String)
deriving DecidableEq, Repr

/-- `AccountModel.friendRequest` (src/unnamed/part_000 lines 89-127), the
public `sendRequest`: resolve the requested handle; check for an existing
edge via `getFriendship`; evaluate the privacy flag; otherwise save
`new Friendship({requester, requested})`, whose schema defaults give status
Pending, `dateSent = now` and no `dateAccepted`.  Returns the outcome and
the resulting store. -/
def friendRequest (accounts : List Identity) (store : Store) (now : Nat)
    (requesterId : AccountId) (requestedEmail : String) : SendOutcome × Store :=
  match viewProfile accounts requestedEmail with
  | none => (SendOutcome.noSuchIdentity, store)
  | some requestedAccountInfo =>
    match getFriendship store requesterId requestedAccountInfo._id with
    | some friendship =>
      (SendOutcome.conflictRefError
        (if friendship.status == FStatus.Pending then "A pending request already exists"
         else "Cannot request friendship of friends"), store)
    | none =>
      if !requestedAccountInfo.friendRequests then
        (SendOutcome.notPermitted "You are not allowed to send this user a friend request.",
         store)
      else
        (SendOutcome.created
          ⟨requesterId, requestedAccountInfo._id, FStatus.Pending, now, none⟩,
         store ++ [⟨requesterId, requestedAccountInfo._id, FStatus.Pending, now, none⟩])

/-- `findOneAndUpdate` on the conditions of `acceptRequest`: update the
first document matching `{requester, requested, status: 'Pending'}` to
status Accepted with `dateAccepted` set, returning the updated document
(mongoose 3.x, the era of this code, returns the modified document by
default) — or nothing when no document matches. -/
def acceptUpdate (requesterId requestedId : AccountId) (now : Nat) :
    Store → Option Friendship × Store
  | [] => (none, [])
  | f :: rest =>
    if f.requester == requesterId && f.requested == requestedId && f.status == FStatus.Pending then
      (some { f with status := FStatus.Accepted, dateAccepted := some now },
       { f with status := FStatus.Accepted, dateAccepted := some now } :: rest)
    else
      let tail := acceptUpdate requesterId requestedId now rest
      (tail.1, f :: tail.2)

/-- `FriendshipModel.acceptRequest` (src/lib/friendship.js lines 146-173,
likewise src/unnamed/part_001 lines 150-177): `findOneAndUpdate` on
`{requester: requesterId, requested: requestedId, status: 'Pending'}` with
updates `{status: 'Accepted', dateAccepted: Date.now()}`; when nothing
matches the callback receives the error `Request does not exist!`. -/
def acceptRequest (store : Store) (requesterId requestedId : AccountId) (now : Nat) :
    Except String Friendship × Store :=
  match acceptUpdate requesterId requestedId now store with
  | (some friendship, store2) => (Except.ok friendship, store2)
  | (none, store2) => (Except.error "Request does not exist!", store2)

/-- `AccountModel.acceptRequest` (src/unnamed/part_000 lines 213-233), the
public accept operation: it forwards its `(requesterId, requestedId)`
arguments to `Friendship.acceptRequest(requestedId, requesterId, ...)` —
in swapped order — so the model-level query runs with the roles reversed. -/
def pluginAcceptRequest (store : Store) (requesterId requestedId : AccountId) (now : Nat) :
    Except String Friendship × Store :=
  acceptRequest store requestedId requesterId now

/-- The `findOne` conditions of `denyRequest`: the Pending edge with that
exact direction. -/
def denyMatches (requesterId requestedId : AccountId) (f : Friendship) : Bool :=
  f.requester == requesterId && f.requested == requestedId && f.status == FStatus.Pending

/-- `document.remove()`: delete the found document — the first match of the
`findOne` conditions — from the collection. -/
def removeFirst (p : Friendship → Bool) : Store → Store
  | [] => []
  | f :: rest => if p f then rest else f :: removeFirst p rest

/-- `FriendshipModel.denyRequest` (src/lib/friendship.js lines 182-200):
`findOne` the Pending edge with that exact direction and `remove` it; when
none exists the callback receives `Request does not exist!`.  The plugin
exposes it unchanged (`AccountSchema.statics.denyRequest =
Friendship.denyRequest`, src/unnamed/part_000 line 242). -/
def denyRequest (store : Store) (requesterId requestedId : AccountId) :
    Except String Unit × Store :=
  match store.find? (denyMatches requesterId requestedId) with
  | some _ => (Except.ok (), removeFirst (denyMatches requesterId requestedId) store)
  | none => (Except.error "Request does not exist!", store)

/-- When the handle resolves, no edge is found and the privacy gate is open,
`friendRequest` saves a fresh Pending edge. -/
lemma friendRequest_ok (accounts : List Identity) (store : Store) (now : Nat)
    (requesterId : AccountId) (requestedEmail : String) (ident : Identity)
    (hfind : accounts.find? (fun i => i.email == requestedEmail) = some ident)
    (hopen : ident.privacy.friendRequests ≠ privacyNOBODY)
    (hnoedge : getFriendship store requesterId ident.accountId = none) :
    friendRequest accounts store now requesterId requestedEmail =
      (SendOutcome.created ⟨requesterId, ident.accountId, FStatus.Pending, now, none⟩,
       store ++ [⟨requesterId, ident.accountId, FStatus.Pending, now, none⟩]) := by
  have hcan : canReceiveFriendRequest ident.privacy = true := by
    unfold canReceiveFriendRequest
    simp [hopen]
  unfold friendRequest viewProfile
  rw [hfind]
  simp only [hnoedge, hcan, Bool.not_true, Bool.false_eq_true, if_false]

/-- When the handle resolves, no edge is found and the requested identity's
friend-request dimension is fully closed, `friendRequest` refuses and leaves
the store unchanged. -/
lemma friendRequest_refused (accounts : List Identity) (store : Store) (now : Nat)
    (requesterId : AccountId) (requestedEmail : String) (ident : Identity)
    (hfind : accounts.find? (fun i => i.email == requestedEmail) = some ident)
    (hclosed : ident.privacy.friendRequests = privacyNOBODY)
    (hnoedge : getFriendship store requesterId ident.accountId = none) :
    friendRequest accounts store now requesterId requestedEmail =
      (SendOutcome.notPermitted "You are not allowed to send this user a friend request.",
       store) := by
  have hcan : canReceiveFriendRequest ident.privacy = false := by
    unfold canReceiveFriendRequest
    simp [hclosed]
  unfold friendRequest viewProfile
  rw [hfind]
  simp only [hnoedge, hcan, Bool.not_false, if_true]

/-- C4: with the requested handle resolvable and no existing edge between
the pair, `sendRequest` fails with the distinct not-permitted outcome and
creates no edge exactly when the requested identity's friend-request privacy
dimension is fully closed; for every other value of that dimension the gate
lets the request proceed and the Pending edge is created. -/
theorem friendRequest_privacy_gate (accounts : List Identity) (store : Store) (now : Nat)
    (requesterId : AccountId) (requestedEmail : String) (ident : Identity)
    (hfind : accounts.find? (fun i => i.email == requestedEmail) = some ident)
    (hnoedge : getFriendship store requesterId ident.accountId = none) :
    (ident.privacy.friendRequests = privacyNOBODY →
      friendRequest accounts store now requesterId requestedEmail =
        (SendOutcome.notPermitted "You are not allowed to send this user a friend request.",
         store)) ∧
    (ident.privacy.friendRequests ≠ privacyNOBODY →
      friendRequest accounts store now requesterId requestedEmail =
        (SendOutcome.created ⟨requesterId, ident.accountId, FStatus.Pending, now, none⟩,
         store ++ [⟨requesterId, ident.accountId, FStatus.Pending, now, none⟩])) := by
  constructor
  · intro hclosed
    exact friendRequest_refused accounts store now requesterId requestedEmail ident
      hfind hclosed hnoedge
  · intro hopen
    exact friendRequest_ok accounts store now requesterId requestedEmail ident
      hfind hopen hnoedge

/-- Witness for C4 at a concrete input: one identity with a fully-closed
friend-request dimension; the request is refused and the store is
unchanged. -/
theorem friendRequest_privacy_gate_witness :
    friendRequest [⟨2, "b", ⟨0, 0, 0, 3⟩⟩] [] 4 1 "b" =
      (SendOutcome.notPermitted "You are not allowed to send this user a friend request.",
       []) :=
  (friendRequest_privacy_gate [⟨2, "b", ⟨0, 0, 0, 3⟩⟩] [] 4 1 "b" ⟨2, "b", ⟨0, 0, 0, 3⟩⟩
    rfl rfl).1 rfl

/-- C3: the duplicate check of `friendRequest` calls `getFriendship`, whose
conditions include `status: 'Accepted'`, so an existing Pending edge does
not block a second request: from a store holding the Pending edge 1→2, a
second `sendRequest(1, 2)` creates another Pending edge for the same pair —
the branch that would report `A pending request already exists` is
unreachable. -/
theorem friendRequest_ignores_pending_eval :
    friendRequest [⟨1, "a", ⟨0, 0, 0, 0⟩⟩, ⟨2, "b", ⟨0, 0, 0, 0⟩⟩]
      [⟨1, 2, FStatus.Pending, 5, none⟩] 7 1 "b" =
      (SendOutcome.created ⟨1, 2, FStatus.Pending, 7, none⟩,
       [⟨1, 2, FStatus.Pending, 5, none⟩, ⟨1, 2, FStatus.Pending, 7, none⟩]) := by
  rfl

/-- C5: with the Pending edge 1→2 in the store, the public
`acceptRequest(1, 2)` forwards its arguments swapped to the model, whose
query `{requester: 2, requested: 1, status: 'Pending'}` matches nothing, so
the call reports `Request does not exist!` and the edge stays Pending; the
model-level `acceptRequest(1, 2)` alone does transition the edge to Accepted
with `dateAccepted` set. -/
theorem acceptRequest_swapped_arguments_eval :
    pluginAcceptRequest [⟨1, 2, FStatus.Pending, 5, none⟩] 1 2 9 =
      (Except.error "Request does not exist!", [⟨1, 2, FStatus.Pending, 5, none⟩]) ∧
    acceptRequest [⟨1, 2, FStatus.Pending, 5, none⟩] 1 2 9 =
      (Except.ok ⟨1, 2, FStatus.Accepted, 5, some 9⟩,
       [⟨1, 2, FStatus.Accepted, 5, some 9⟩]) := by
  constructor <;> rfl

/-- `find?` skips a whole prefix on which the predicate is false. -/
lemma find?_skip_unmatched (p : Friendship → Bool) :
    ∀ (l1 l2 : Store), (∀ f ∈ l1, p f = false) → (l1 ++ l2).find? p = l2.find? p := by
  intro l1
  induction l1 with
  | nil => intro l2 _; rfl
  | cons f rest ih =>
    intro l2 h
    have hf : p f = false := h f (List.mem_cons_self f rest)
    rw [List.cons_append, List.find?, hf]
    exact ih l2 (fun g hg => h g (List.mem_cons_of_mem f hg))

/-- Removing the first match from a list whose prefix has no match deletes
exactly the appended matching element. -/
lemma removeFirst_skip_unmatched (p : Friendship → Bool) :
    ∀ (l1 : Store) (e : Friendship), (∀ f ∈ l1, p f = false) → p e = true →
      removeFirst p (l1 ++ [e]) = l1 := by
  intro l1
  induction l1 with
  | nil =>
    intro e _ he
    simp [removeFirst, he]
  | cons f rest ih =>
    intro e h he
    have hf : p f = false := h f (List.mem_cons_self f rest)
    rw [List.cons_append, removeFirst, hf]
    simp only [Bool.false_eq_true, if_false]
    rw [ih e (fun g hg => h g (List.mem_cons_of_mem f hg)) he]

/-- A Pending edge is invisible to `getFriendship`, whose filter requires
status Accepted. -/
lemma getFriendship_append_pending (store : Store) (a b : AccountId) (e : Friendship)
    (he : e.status = FStatus.Pending)
    (h : getFriendship store a b = none) :
    getFriendship (store ++ [e]) a b = none := by
  unfold getFriendship at h ⊢
  rw [List.find?_eq_none] at h
  rw [List.find?_eq_none]
  intro f hf
  rcases List.mem_append.mp hf with hf | hf
  · exact h f hf
  · have : f = e := by simpa using hf
    subst this
    simp [he]

/-- C7: after `sendRequest(a, b)` created the Pending edge, `denyRequest(a,
b)` deletes exactly that edge, a subsequent `getFriendship(a, b)` still
returns absent, and a new `sendRequest(a, b)` succeeds again — no Denied
state is ever persisted. -/
theorem denyRequest_removes_edge (accounts : List Identity) (store : Store)
    (now1 now2 : Nat) (a : AccountId) (email : String) (ident : Identity)
    (hfind : accounts.find? (fun i => i.email == email) = some ident)
    (hopen : ident.privacy.friendRequests ≠ privacyNOBODY)
    (hnoedge : getFriendship store a ident.accountId = none)
    (hnopending : ∀ f ∈ store, denyMatches a ident.accountId f = false) :
    friendRequest accounts store now1 a email =
      (SendOutcome.created ⟨a, ident.accountId, FStatus.Pending, now1, none⟩,
       store ++ [⟨a, ident.accountId, FStatus.Pending, now1, none⟩]) ∧
    denyRequest (store ++ [⟨a, ident.accountId, FStatus.Pending, now1, none⟩])
        a ident.accountId = (Except.ok (), store) ∧
    getFriendship
      (denyRequest (store ++ [⟨a, ident.accountId, FStatus.Pending, now1, none⟩])
        a ident.accountId).2 a ident.accountId = none ∧
    friendRequest accounts
      (denyRequest (store ++ [⟨a, ident.accountId, FStatus.Pending, now1, none⟩])
        a ident.accountId).2 now2 a email =
      (SendOutcome.created ⟨a, ident.accountId, FStatus.Pending, now2, none⟩,
       store ++ [⟨a, ident.accountId, FStatus.Pending, now2, none⟩]) := by
  have hmatch : denyMatches a ident.accountId ⟨a, ident.accountId, FStatus.Pending, now1, none⟩
      = true := by
    simp [denyMatches]
  have hdeny : denyRequest (store ++ [⟨a, ident.accountId, FStatus.Pending, now1, none⟩])
      a ident.accountId = (Except.ok (), store) := by
    unfold denyRequest
    rw [find?_skip_unmatched _ store _ hnopending]
    simp only [List.find?, hmatch]
    rw [removeFirst_skip_unmatched _ store _ hnopending hmatch]
  refine ⟨friendRequest_ok accounts store now1 a email ident hfind hopen hnoedge, hdeny, ?_, ?_⟩
  · rw [hdeny]
    exact hnoedge
  · rw [hdeny]
    exact friendRequest_ok accounts store now2 a email ident hfind hopen hnoedge

/-- Witness for C7 at a concrete input: send 1→2, deny it, observe the edge
gone and a fresh send succeed. -/
theorem denyRequest_removes_edge_witness :
    friendRequest [⟨2, "b", ⟨0, 0, 0, 0⟩⟩] [] 5 1 "b" =
      (SendOutcome.created ⟨1, 2, FStatus.Pending, 5, none⟩,
       [⟨1, 2, FStatus.Pending, 5, none⟩]) ∧
    denyRequest [⟨1, 2, FStatus.Pending, 5, none⟩] 1 2 = (Except.ok (), []) ∧
    getFriendship (denyRequest [⟨1, 2, FStatus.Pending, 5, none⟩] 1 2).2 1 2 = none ∧
    friendRequest [⟨2, "b", ⟨0, 0, 0, 0⟩⟩] (denyRequest [⟨1, 2, FStatus.Pending, 5, none⟩] 1 2).2
        8 1 "b" =
      (SendOutcome.created ⟨1, 2, FStatus.Pending, 8, none⟩,
       [⟨1, 2, FStatus.Pending, 8, none⟩]) :=
  denyRequest_removes_edge [⟨2, "b", ⟨0, 0, 0, 0⟩⟩] [] 5 8 1 "b" ⟨2, "b", ⟨0, 0, 0, 0⟩⟩
    rfl (by decide) rfl (by simp)

/-- The scanning `while` loop of `isFriend`: walk the friend list until
`accountId2.equals(friendIds[i])` or the list is exhausted. -/
def scanForId (accountId2 : AccountId) : List AccountId → Bool
  | [] => false
  | fid :: rest => if accountId2 == fid then true else scanForId accountId2 rest

/-- `FriendshipModel.isFriend` (src/unnamed/part_001 lines 313-347,
identical as `areFriends` in src/lib/friendship.js lines 305-341): query
`accountId1`'s friends and, when there are any, scan them for
`accountId2`. -/
def isFriend (store : Store) (accountId1 accountId2 : AccountId) : Bool :=
  let friendIds := getFriends store accountId1
  if friendIds.isEmpty then false
  else scanForId accountId2 friendIds

/-- The nested `while` loops of `isFriendOfFriends`: for each of account1's
friends, scan account2's friends for an `.equals` match. -/
def hasCommonFriend : List AccountId → List AccountId → Bool
  | [], _ => false
  | x :: rest, l2 => if l2.any (fun y => x == y) then true else hasCommonFriend rest l2

/-- `FriendshipModel.isFriendOfFriends` (src/unnamed/part_001 lines 356-403,
identical as `areFriendsOfFriends` in src/lib/friendship.js lines 350-394):
false when either account's friend list is empty, otherwise true exactly
when the two lists share an id. -/
def isFriendOfFriends (store : Store) (accountId1 accountId2 : AccountId) : Bool :=
  let account1FriendIds := getFriends store accountId1
  if account1FriendIds.isEmpty then false
  else
    let account2FriendIds := getFriends store accountId2
    if account2FriendIds.isEmpty then false
    else hasCommonFriend account1FriendIds account2FriendIds

/-- Modelled from the spec: the relationships module (the numeric constants
`NOT_FRIENDS`, `FRIENDS_OF_FRIENDS`, `FRIENDS`) is not under src/; the spec
describes a tri-state classification, mutually exclusive, ordered by
strength. -/
inductive Relationship where
  | NotFriends
  | FriendsOfFriends
  | Friends
deriving DecidableEq, Repr

/-- `FriendshipModel.getRelationship` (src/unnamed/part_001 lines 412-438,
identical via `areFriends`/`areFriendsOfFriends` in src/lib/friendship.js
lines 403-429): Friends when `isFriend`; otherwise FriendsOfFriends when
`isFriendOfFriends`; otherwise NotFriends. -/
def getRelationship (store : Store) (accountId1 accountId2 : AccountId) : Relationship :=
  if isFriend store accountId1 accountId2 then Relationship.Friends
  else if isFriendOfFriends store accountId1 accountId2 then Relationship.FriendsOfFriends
  else Relationship.NotFriends

/-- The scan finds an id exactly when it is in the list. -/
lemma scanForId_iff (b : AccountId) (l : List AccountId) :
    scanForId b l = true ↔ b ∈ l := by
  induction l with
  | nil => simp [scanForId]
  | cons fid rest ih =>
    by_cases h : b = fid
    · simp [scanForId, h]
    · have hb : (b == fid) = false := beq_eq_false_iff_ne.mpr h
      simp [scanForId, hb, ih, h]

/-- `isFriend` decides membership in the derived friend list. -/
lemma isFriend_iff (store : Store) (a b : AccountId) :
    isFriend store a b = true ↔ b ∈ getFriends store a := by
  unfold isFriend
  by_cases h : (getFriends store a).isEmpty
  · rw [if_pos h]
    rw [List.isEmpty_iff] at h
    simp [h]
  · rw [if_neg h]
    exact scanForId_iff b (getFriends store a)

/-- The nested scan finds a common element exactly when one exists. -/
lemma hasCommonFriend_iff (l1 l2 : List AccountId) :
    hasCommonFriend l1 l2 = true ↔ ∃ c, c ∈ l1 ∧ c ∈ l2 := by
  induction l1 with
  | nil => simp [hasCommonFriend]
  | cons x rest ih =>
    by_cases h : x ∈ l2
    · have hany : (l2.any (fun y => x == y)) = true := by
        rw [List.any_eq_true]
        exact ⟨x, h, beq_self_eq_true x⟩
      simp only [hasCommonFriend, hany, if_true, true_iff]
      exact ⟨x, List.mem_cons_self x rest, h⟩
    · have hany : (l2.any (fun y => x == y)) = false := by
        rw [Bool.eq_false_iff]
        intro hc
        rw [List.any_eq_true] at hc
        obtain ⟨y, hy, hxy⟩ := hc
        exact h (beq_iff_eq.mp hxy ▸ hy)
      simp only [hasCommonFriend, hany, Bool.false_eq_true, if_false, ih]
      constructor
      · rintro ⟨c, hc1, hc2⟩
        exact ⟨c, List.mem_cons_of_mem x hc1, hc2⟩
      · rintro ⟨c, hc1, hc2⟩
        rcases List.mem_cons.mp hc1 with rfl | hc1
        · exact absurd hc2 h
        · exact ⟨c, hc1, hc2⟩

/-- `isFriendOfFriends` decides whether the two friend lists intersect. -/
lemma isFriendOfFriends_iff (store : Store) (a b : AccountId) :
    isFriendOfFriends store a b = true ↔
      ∃ c, c ∈ getFriends store a ∧ c ∈ getFriends store b := by
  unfold isFriendOfFriends
  by_cases h1 : (getFriends store a).isEmpty
  · rw [if_pos h1]
    rw [List.isEmpty_iff] at h1
    simp [h1]
  · rw [if_neg h1]
    by_cases h2 : (getFriends store b).isEmpty
    · rw [if_pos h2]
      rw [List.isEmpty_iff] at h2
      simp [h2]
    · rw [if_neg h2]
      exact hasCommonFriend_iff (getFriends store a) (getFriends store b)

/-- C6: `getRelationship(a, b)` is Friends exactly when `b` is in
`getFriends(a)`; FriendsOfFriends exactly when it is not but the two friend
lists intersect; NotFriends exactly when neither holds — the three outcomes
are mutually exclusive and Friends takes precedence even when a mutual
friend also exists. -/
theorem getRelationship_classification (store : Store) (a b : AccountId) :
    (getRelationship store a b = Relationship.Friends ↔ b ∈ getFriends store a) ∧
    (getRelationship store a b = Relationship.FriendsOfFriends ↔
      b ∉ getFriends store a ∧ ∃ c, c ∈ getFriends store a ∧ c ∈ getFriends store b) ∧
    (getRelationship store a b = Relationship.NotFriends ↔
      b ∉ getFriends store a ∧ ¬∃ c, c ∈ getFriends store a ∧ c ∈ getFriends store b) := by
  unfold getRelationship
  by_cases hf : isFriend store a b = true
  · have hmem : b ∈ getFriends store a := (isFriend_iff store a b).mp hf
    simp [hf, hmem]
  · have hmem : b ∉ getFriends store a := fun hc => hf ((isFriend_iff store a b).mpr hc)
    by_cases hff : isFriendOfFriends store a b = true
    · have hint := (isFriendOfFriends_iff store a b).mp hff
      simp [hf, hff, hmem, hint]
    · have hint : ¬∃ c, c ∈ getFriends store a ∧ c ∈ getFriends store b :=
        fun hc => hff ((isFriendOfFriends_iff store a b).mpr hc)
      simp [hf, hff, hmem, hint]

/-- C10: for an account with at least one friend, the standalone
mutual-friend predicate applied to the account and itself is true — its
friend list intersects itself, and no self-query guard exists. -/
theorem isFriendOfFriends_self (store : Store) (a : AccountId)
    (h : getFriends store a ≠ []) : isFriendOfFriends store a a = true := by
  rw [isFriendOfFriends_iff]
  cases hl : getFriends store a with
  | nil => exact absurd hl h
  | cons c rest => exact ⟨c, List.mem_cons_self c rest, List.mem_cons_self c rest⟩

/-- Witness for C10 at a concrete input: account 1 has the single friend 2,
and `isFriendOfFriends(1, 1)` is true. -/
theorem isFriendOfFriends_self_witness :
    getFriends [⟨1, 2, FStatus.Accepted, 0, none⟩] 1 ≠ [] ∧
    isFriendOfFriends [⟨1, 2, FStatus.Accepted, 0, none⟩] 1 1 = true :=
  ⟨by decide, isFriendOfFriends_self [⟨1, 2, FStatus.Accepted, 0, none⟩] 1 (by decide)⟩

/-- The store together with a failure oracle for the friends query: `find`
may invoke its callback with an error for a given account, which is the
`err` argument every `getFriends` callback checks first. -/
structure FofStore where
  edges : Store
  findErr : AccountId → Option String

/-- `getFriends` with its error channel: the callback receives either the
query error or the derived friend list. -/
def getFriendsE (s : FofStore) (accountId : AccountId) : Except String (List AccountId) :=
  match s.findErr accountId with
  | some e => Except.error e
  | none => Except.ok (getFriends s.edges accountId)

/-- The fan-out of `getFriendsOfFriends` with the error channel: each
friend's sub-query either fails — the first failure is the one `done`
observes, later calls of `done` being ignored by the caller — or feeds the
inner accumulation loop.  The state is (first error so far, `idsFound`,
`friendsOfFriendsIds`). -/
def fofLoopE (s : FofStore) (accountId : AccountId) :
    Option String × List JsVal × List AccountId → List AccountId →
      Option String × List JsVal × List AccountId
  | st, [] => st
  | st, friendId :: rest =>
    match getFriendsE s friendId with
    | Except.error e =>
      fofLoopE s accountId
        ((match st.1 with
          | some e0 => some e0
          | none => some e), st.2) rest
    | Except.ok friendsOfFriendIds =>
      fofLoopE s accountId
        (st.1, fofInner accountId friendsOfFriendIds st.2 friendsOfFriendIds) rest

/-- `getFriendsOfFriends` with the error channel (src/lib/friendship.js
lines 261-295): an error on the account's own friends query fails the call;
no friends yields the empty list; otherwise the fan-out runs, `done`
receives the first sub-query error when one occurred, and the result list
only when the completion counter reached the number of friends — which
happens exactly when every sub-query succeeded. -/
def getFriendsOfFriendsE (s : FofStore) (accountId : AccountId) :
    Except String (List AccountId) :=
  match getFriendsE s accountId with
  | Except.error e => Except.error e
  | Except.ok friendIds =>
    if friendIds.isEmpty then Except.ok []
    else
      match fofLoopE s accountId (none, [], []) friendIds with
      | (some e, _) => Except.error e
      | (none, st) => Except.ok st.2

/-- The first sub-query error among a list of friends, in list order. -/
def firstSubqueryError (s : FofStore) : List AccountId → Option String
  | [] => none
  | friendId :: rest =>
    match s.findErr friendId with
    | some e => some e
    | none => firstSubqueryError s rest

/-- There is no first sub-query error exactly when every sub-query
succeeds. -/
lemma firstSubqueryError_eq_none (s : FofStore) :
    ∀ l : List AccountId, firstSubqueryError s l = none ↔ ∀ f ∈ l, s.findErr f = none := by
  intro l
  induction l with
  | nil => simp [firstSubqueryError]
  | cons friendId rest ih =>
    cases herr : s.findErr friendId with
    | some e => simp [firstSubqueryError, herr]
    | none => simp [firstSubqueryError, herr, ih]

/-- The error component of the fan-out state ends up holding the first
sub-query error (or the error it started with). -/
lemma fofLoopE_fst (s : FofStore) (a : AccountId) :
    ∀ (l : List AccountId) (st : Option String × List JsVal × List AccountId),
      (fofLoopE s a st l).1 =
        match st.1 with
        | some e => some e
        | none => firstSubqueryError s l := by
  intro l
  induction l with
  | nil =>
    intro st
    cases hst : st.1 <;> simp [fofLoopE, firstSubqueryError, hst]
  | cons friendId rest ih =>
    intro st
    cases herr : s.findErr friendId with
    | some e =>
      have hge : getFriendsE s friendId = Except.error e := by
        simp [getFriendsE, herr]
      rw [fofLoopE, hge]
      rw [ih]
      cases hst : st.1 <;> simp [firstSubqueryError, herr, hst]
    | none =>
      have hge : getFriendsE s friendId = Except.ok (getFriends s.edges friendId) := by
        simp [getFriendsE, herr]
      rw [fofLoopE, hge, ih]
      cases hst : st.1 <;> simp [firstSubqueryError, herr, hst]

/-- When every sub-query succeeds, the fan-out with error channel computes
exactly what the pure fan-out computes. -/
lemma fofLoopE_ok (s : FofStore) (a : AccountId) :
    ∀ (l : List AccountId) (e0 : Option String) (st2 : List JsVal × List AccountId),
      (∀ f ∈ l, s.findErr f = none) →
        fofLoopE s a (e0, st2) l = (e0, fofLoop s.edges a st2 l) := by
  intro l
  induction l with
  | nil => intro e0 st2 _; rfl
  | cons friendId rest ih =>
    intro e0 st2 h
    have herr : s.findErr friendId = none := h friendId (List.mem_cons_self friendId rest)
    have hge : getFriendsE s friendId = Except.ok (getFriends s.edges friendId) := by
      simp [getFriendsE, herr]
    rw [fofLoopE, hge, fofLoop]
    exact ih e0 _ (fun g hg => h g (List.mem_cons_of_mem friendId hg))

/-- C8: when the account's own friends query succeeds, the friends-of-
friends call reports the first failing per-friend sub-query when one exists,
and otherwise — only once every sub-query has completed successfully — the
full result of the pure traversal; a partial list is never produced. -/
theorem getFriendsOfFriendsE_complete (s : FofStore) (a : AccountId)
    (h : s.findErr a = none) :
    getFriendsOfFriendsE s a =
      match firstSubqueryError s (getFriends s.edges a) with
      | some e => Except.error e
      | none => Except.ok (getFriendsOfFriends s.edges a) := by
  have hok : getFriendsE s a = Except.ok (getFriends s.edges a) := by
    simp [getFriendsE, h]
  unfold getFriendsOfFriendsE
  simp only [hok]
  by_cases hempty : (getFriends s.edges a).isEmpty
  · rw [if_pos hempty]
    have hnil : getFriends s.edges a = [] := List.isEmpty_iff.mp hempty
    rw [hnil]
    simp [firstSubqueryError, getFriendsOfFriends, hnil]
  · rw [if_neg hempty]
    cases hfe : firstSubqueryError s (getFriends s.edges a) with
    | some e =>
      rcases hr : fofLoopE s a (none, [], []) (getFriends s.edges a) with ⟨r1, r2⟩
      have h1 := fofLoopE_fst s a (getFriends s.edges a) (none, [], [])
      rw [hr, hfe] at h1
      simp only [] at h1
      rw [h1]
    | none =>
      have hall := (firstSubqueryError_eq_none s (getFriends s.edges a)).mp hfe
      rw [fofLoopE_ok s a (getFriends s.edges a) none ([], []) hall]
      simp only [getFriendsOfFriends]
      rw [if_neg hempty]

/-- Witness for C8 at a concrete input: account 1 has friends 2 and 3; the
sub-query for 2 fails, and the whole call reports that error. -/
theorem getFriendsOfFriendsE_complete_witness :
    (FofStore.mk
      [⟨1, 2, FStatus.Accepted, 0, none⟩, ⟨1, 3, FStatus.Accepted, 1, none⟩]
      (fun n => if n == 2 then some "store down" else none)).findErr 1 = none ∧
    getFriendsOfFriendsE
      (FofStore.mk
        [⟨1, 2, FStatus.Accepted, 0, none⟩, ⟨1, 3, FStatus.Accepted, 1, none⟩]
        (fun n => if n == 2 then some "store down" else none)) 1 =
      Except.error "store down" := by
  refine ⟨rfl, ?_⟩
  rw [getFriendsOfFriendsE_complete
    (FofStore.mk
      [⟨1, 2, FStatus.Accepted, 0, none⟩, ⟨1, 3, FStatus.Accepted, 1, none⟩]
      (fun n => if n == 2 then some "store down" else none)) 1 rfl]
  rfl

end FriendsOfFriends
